import Mathlib

/-!
Verification of the Slurm-connect core of `sciama-vscode`.

The definitions below are a shallow embedding of the TypeScript source
(`src/extension.ts`, the single-file extension): JavaScript strings become
`String`, JavaScript numbers become `Nat`/`Int`, `Map`/`Record` become
association lists with JavaScript `Map.set` semantics (update in place,
append new keys), `Set` becomes a duplicate-free list, and the promise
that may reject (`runSshCommand`) becomes an explicit
`String → Except String String` oracle.
-/

set_option maxRecDepth 100000

/-! ## JavaScript string primitives -/

/-- JavaScript `String.prototype.trim`. -/
def jsTrim (s : String) : String :=
  ⟨((s.data.dropWhile Char.isWhitespace).reverse.dropWhile Char.isWhitespace).reverse⟩

/-- Split on a single separator character, JavaScript `split(sep)` semantics:
the empty string yields `[""]`, and trailing separators yield empty pieces. -/
def splitCharAux (sep : Char) : List Char → List Char → List (List Char)
  | [], acc => [acc.reverse]
  | c :: rest, acc =>
    if c = sep then acc.reverse :: splitCharAux sep rest []
    else splitCharAux sep rest (c :: acc)

def splitOnChar (sep : Char) (s : String) : List String :=
  (splitCharAux sep s.data []).map (fun l => ⟨l⟩)

/-- Remove one trailing carriage return, used to model splitting on the
regular expression `\r?\n`. -/
def stripCR (l : List Char) : List Char :=
  match l.getLast? with
  | some '\r' => l.dropLast
  | _ => l

/-- JavaScript `output.split(/\r?\n/)`. -/
def splitLines (s : String) : List String :=
  (splitCharAux '\n' s.data []).map (fun l => ⟨stripCR l⟩)

def listStartsWith : List Char → List Char → Bool
  | _, [] => true
  | [], _ :: _ => false
  | c :: cs, p :: ps => c = p && listStartsWith cs ps

def containsSub (pat : List Char) : List Char → Bool
  | [] => pat.isEmpty
  | c :: rest => listStartsWith (c :: rest) pat || containsSub pat rest

/-- JavaScript `s.includes(sub)`. -/
def jsIncludes (s sub : String) : Bool :=
  containsSub sub.data s.data

/-- JavaScript `/^\d/.test(s)`. -/
def jsStartsWithDigit (s : String) : Bool :=
  match s.data with
  | [] => false
  | c :: _ => c.isDigit

/-- JavaScript `/^\d+$/.test(s)`. -/
def allDigits (s : String) : Bool :=
  !s.data.isEmpty && s.data.all Char.isDigit

def digitsToNat (l : List Char) : Nat :=
  l.foldl (fun a c => a * 10 + (c.toNat - '0'.toNat)) 0

/-- `value.match(/\d+/)`: the first contiguous run of decimal digits. -/
def firstDigitRun (l : List Char) : List Char :=
  (l.dropWhile (fun c => !c.isDigit)).takeWhile Char.isDigit

/-- `parseNumericField` from the source: first digit run as a number, else 0. -/
def parseNumericField (s : String) : Nat :=
  digitsToNat (firstDigitRun s.data)

/-- JavaScript `token.replace(/\(.*?\)/g, '')`, as a one-pass scan.
`pending = some buf` means we are inside a candidate group `\(.*?\)`
whose content so far is `buf` (reversed): the nearest `)` closes and
drops the group; a newline (which `.` cannot match) or the end of the
input means the `(` matches nothing, so the buffered text is emitted
verbatim. -/
def stripParensAux : Option (List Char) → List Char → List Char
  | none, [] => []
  | some pending, [] => '(' :: pending.reverse
  | none, c :: rest =>
    if c = '(' then stripParensAux (some []) rest
    else c :: stripParensAux none rest
  | some pending, c :: rest =>
    if c = ')' then stripParensAux none rest
    else if c = '\n' then ('(' :: pending.reverse) ++ '\n' :: stripParensAux none rest
    else stripParensAux (some (c :: pending)) rest

def stripParensStr (s : String) : String :=
  ⟨stripParensAux none s.data⟩

/-! ## Association lists with JavaScript `Map` semantics -/

def alistGet {α : Type} : List (String × α) → String → Option α
  | [], _ => none
  | (k', v) :: rest, k => if k' = k then some v else alistGet rest k

def alistSet {α : Type} : List (String × α) → String → α → List (String × α)
  | [], k, v => [(k, v)]
  | (k', v') :: rest, k, v =>
    if k' = k then (k, v) :: rest else (k', v') :: alistSet rest k v

/-- JavaScript `Set.prototype.add`. -/
def setAdd (s : List String) (x : String) : List String :=
  if x ∈ s then s else s ++ [x]

/-- Value of a type label in a gpu-type map, with the 0 default the source
uses (`existing.gpuTypes[type] || 0`). -/
def typeCount (m : List (String × Nat)) (t : String) : Nat :=
  (alistGet m t).getD 0

/-- The maximum over all values of a gpu-type map (0 when empty). -/
def maxValues (m : List (String × Nat)) : Nat :=
  m.foldr (fun p a => max p.2 a) 0

/-! ## GresParser (`parseGresInfo`) -/

structure GresInfo where
  gpuMax : Nat
  gpuTypes : List (String × Nat)
deriving DecidableEq, Repr

/-- The `split(':')`, trim, `filter(Boolean)` pipeline applied to a cleaned
GRES token. -/
def gresTokenParts (token : String) : List String :=
  ((splitOnChar ':' (stripParensStr token)).map jsTrim).filter (fun p => p ≠ "")

/-- One iteration of the token loop in `parseGresInfo`: `none` means the
token is discarded (`continue`), `some (type, count)` means it contributes
`count > 0` under label `type`. -/
def resolveGresToken (token : String) : Option (String × Nat) :=
  if jsIncludes token "gpu" then
    match gresTokenParts token with
    | [] => none
    | p0 :: restParts =>
      if p0 = "gpu" then
        let tc : String × Nat :=
          match restParts with
          | [] => ("", 0)
          | [x] => if allDigits x then ("", digitsToNat x.data) else (x, 0)
          | x :: y :: _ => (x, if allDigits y then digitsToNat y.data else 0)
        if tc.2 = 0 then none else some tc
      else none
  else none

def gresStep (acc : GresInfo) (token : String) : GresInfo :=
  match resolveGresToken token with
  | none => acc
  | some (ty, count) =>
    { gpuMax := max acc.gpuMax count
      gpuTypes := alistSet acc.gpuTypes ty (max (typeCount acc.gpuTypes ty) count) }

def parseGresInfo (raw : String) : GresInfo :=
  if raw = "" then ⟨0, []⟩
  else
    let tokens := ((splitOnChar ',' raw).map jsTrim).filter (fun t => t ≠ "")
    tokens.foldl gresStep ⟨0, []⟩

/-! ## PartitionInfoParser (`parsePartitionInfoOutput`) -/

structure PartitionInfo where
  name : String
  nodes : Nat
  cpus : Nat
  memMb : Nat
  gpuMax : Nat
  gpuTypes : List (String × Nat)
  isDefault : Bool
deriving DecidableEq, Repr

structure ClusterInfo where
  partitions : List PartitionInfo
  defaultPartition : Option String
deriving DecidableEq, Repr

/-- The per-line data computed before the per-name loop:
names (cleaned, with their `*` flags), node identifier or node count from
field 1, cpu capacity, memory and GRES data. `none` means the line is
skipped (`fields.length < 3` or empty name field). -/
structure LineData where
  names : List (String × Bool)
  nodeName : Option String
  nodesCount : Nat
  cpus : Nat
  memMb : Nat
  gres : GresInfo
deriving DecidableEq, Repr

def removeStars (s : String) : String :=
  ⟨s.data.filter (fun c => c ≠ '*')⟩

def parseLineData (line : String) : Option LineData :=
  let fields := (splitOnChar '|' line).map jsTrim
  if fields.length < 3 then none
  else
    let rawName := fields.getD 0 ""
    if rawName = "" then none
    else
      let field1 := fields.getD 1 ""
      let field2 := fields.getD 2 ""
      let field3 := fields.getD 3 ""
      let field4 := fields.getD 4 ""
      let isField1Numeric := jsStartsWithDigit field1
      some
        { names := (((splitOnChar ',' rawName).map jsTrim).filter (fun p => p ≠ "")).map
            (fun p => (removeStars p, jsIncludes p "*"))
          nodeName := if !isField1Numeric && field1 ≠ "" then some field1 else none
          nodesCount := if isField1Numeric then parseNumericField field1 else 0
          cpus := parseNumericField
            (if jsIncludes field2 "/" then (splitOnChar '/' field2).getLastD "" else field2)
          memMb := parseNumericField field3
          gres := parseGresInfo field4 }

structure ParseState where
  partitions : List (String × PartitionInfo)
  nodeSets : List (String × List String)
  defaultPartition : Option String
deriving DecidableEq, Repr

def emptyRecord (name : String) (isDefault : Bool) : PartitionInfo :=
  ⟨name, 0, 0, 0, 0, [], isDefault⟩

/-- Per-type max merge of gpu-type maps (the `for (const [type, count] of
Object.entries(...))` loop). -/
def mergeGpuTypes (m entries : List (String × Nat)) : List (String × Nat) :=
  entries.foldl (fun acc p => alistSet acc p.1 (max (typeCount acc p.1) p.2)) m

/-- The body of the `for (const partitionName of partitionNames)` loop. -/
def applyName (d : LineData) (st : ParseState) (nb : String × Bool) : ParseState :=
  let name := nb.1
  let isDef := nb.2
  let newDefault := if isDef && st.defaultPartition.isNone then some name else st.defaultPartition
  let existing := (alistGet st.partitions name).getD (emptyRecord name isDef)
  let newNodeSets :=
    match d.nodeName with
    | some nn => alistSet st.nodeSets name (setAdd ((alistGet st.nodeSets name).getD []) nn)
    | none => st.nodeSets
  let nodes1 :=
    match d.nodeName with
    | some _ => existing.nodes
    | none => if d.nodesCount ≠ 0 then max existing.nodes d.nodesCount else existing.nodes
  let updated : PartitionInfo :=
    ⟨existing.name, nodes1, max existing.cpus d.cpus, max existing.memMb d.memMb,
      max existing.gpuMax d.gres.gpuMax, mergeGpuTypes existing.gpuTypes d.gres.gpuTypes,
      existing.isDefault || isDef⟩
  ⟨alistSet st.partitions name updated, newNodeSets, newDefault⟩

def processLine (st : ParseState) (line : String) : ParseState :=
  match parseLineData line with
  | none => st
  | some d => d.names.foldl (applyName d) st

/-- `output.split(/\r?\n/).map(trim).filter(Boolean)`. -/
def toLines (output : String) : List String :=
  ((splitLines output).map jsTrim).filter (fun l => l ≠ "")

/-- The final pass: an explicit node-identifier set overrides the numeric
node count (`info.nodes = set.size`). -/
def finalizeRecord (nodeSets : List (String × List String)) (p : String × PartitionInfo) :
    PartitionInfo :=
  match alistGet nodeSets p.1 with
  | some s => if s.length > 0 then
      ⟨p.2.name, s.length, p.2.cpus, p.2.memMb, p.2.gpuMax, p.2.gpuTypes, p.2.isDefault⟩
    else p.2
  | none => p.2

instance partitionNameLeDec :
    DecidableRel (fun a b : PartitionInfo => a.name ≤ b.name) :=
  fun a b => inferInstanceAs (Decidable (a.name ≤ b.name))

instance partitionNameLeTotal :
    IsTotal PartitionInfo (fun a b => a.name ≤ b.name) :=
  ⟨fun a b => le_total a.name b.name⟩

instance partitionNameLeTrans :
    IsTrans PartitionInfo (fun a b => a.name ≤ b.name) :=
  ⟨fun _ _ _ h1 h2 => le_trans h1 h2⟩

def parsePartitionInfoOutput (output : String) : ClusterInfo :=
  let st := (toLines output).foldl processLine ⟨[], [], none⟩
  let values := st.partitions.map (finalizeRecord st.nodeSets)
  { partitions := List.insertionSort (fun a b => a.name ≤ b.name) values
    defaultPartition := st.defaultPartition }

/-! ## Configuration and resource selection -/

/-- The slice of `SciamaConfig` consumed by the embedded operations. -/
structure SciamaConfig where
  user : String
  identityFile : String
  forwardAgent : Bool
  requestTTY : Bool
  moduleLoad : String
  proxyCommand : String
  proxyArgs : List String
  extraSallocArgs : List String
  defaultPartition : String
  defaultNodes : Int
  defaultTasksPerNode : Int
  defaultCpusPerTask : Int
  defaultTime : String
  defaultMemoryMb : Int
  defaultGpuType : String
  defaultGpuCount : Int
  sshHostPrefix : String
  additionalSshOptions : List (String × String)
deriving DecidableEq, Repr

/-- The parameter record passed to `buildSallocArgs`. -/
structure ResourceSelection where
  partition : Option String
  nodes : Int
  tasksPerNode : Int
  cpusPerTask : Int
  time : String
  memoryMb : Int
  gpuType : String
  gpuCount : Int
  qos : Option String
  account : Option String
deriving DecidableEq, Repr

/-! ## LaunchCommandBuilder (`buildSallocArgs`, `buildRemoteCommand`) -/

def optFlag (flag : String) (v : Option String) : List String :=
  match v with
  | some s => if s ≠ "" then [flag ++ "=" ++ s] else []
  | none => []

def buildSallocArgs (params : ResourceSelection) : List String :=
  optFlag "--partition" params.partition ++
  ["--nodes=" ++ toString params.nodes,
   "--ntasks-per-node=" ++ toString params.tasksPerNode,
   "--cpus-per-task=" ++ toString params.cpusPerTask,
   "--time=" ++ params.time] ++
  optFlag "--qos" params.qos ++
  optFlag "--account" params.account ++
  (if 0 < params.memoryMb then ["--mem=" ++ toString params.memoryMb] else []) ++
  (if 0 < params.gpuCount then
    let ty := jsTrim params.gpuType
    let gres := if ty ≠ "" then "gpu:" ++ ty ++ ":" ++ toString params.gpuCount
                else "gpu:" ++ toString params.gpuCount
    ["--gres=" ++ gres]
  else [])

def buildRemoteCommand (cfg : SciamaConfig) (sallocArgs : List String) : String :=
  let proxyParts := cfg.proxyCommand :: cfg.proxyArgs.filter (fun a => a ≠ "")
  let proxyCommand := jsTrim (String.intercalate " " (proxyParts.filter (fun p => p ≠ "")))
  if proxyCommand = "" then ""
  else
    let sallocFlags := sallocArgs.map (fun arg => "--salloc-arg=" ++ arg)
    let fullProxyCommand := jsTrim (String.intercalate " " (proxyCommand :: sallocFlags))
    if cfg.moduleLoad ≠ "" then jsTrim (cfg.moduleLoad ++ " && " ++ fullProxyCommand)
    else fullProxyCommand

/-- The composition at the `connectCommand` call site:
`buildRemoteCommand(cfg, [...sallocArgs, ...cfg.extraSallocArgs, ...extraArgs])`. -/
def composeRemoteCommand (cfg : SciamaConfig) (sel : ResourceSelection)
    (extraArgs : List String) : String :=
  buildRemoteCommand cfg (buildSallocArgs sel ++ cfg.extraSallocArgs ++ extraArgs)

/-! ## Alias, host entry, overlay content -/

def sanitizeAliasChar (c : Char) : Char :=
  if c.isAlphanum || c = '_' || c = '-' then c else '-'

def buildDefaultAlias (pfx loginHost : String) (partition : Option String)
    (nodes cpusPerTask : Int) : String :=
  let hostShort := (splitOnChar '.' loginHost).getD 0 ""
  let pieces := [if pfx ≠ "" then pfx else "sciama", hostShort] ++
    (match partition with
     | some p => if p ≠ "" then [p] else []
     | none => []) ++
    [toString nodes ++ "n", toString cpusPerTask ++ "c"]
  ⟨(String.intercalate "-" pieces).data.map sanitizeAliasChar⟩

/-- `buildHostEntry` from the source; the `new Date().toISOString()` timestamp
is passed in as `now`. Note: the source emits every directive value verbatim,
with no quoting. -/
def buildHostEntry (aliasName loginHost : String) (cfg : SciamaConfig)
    (remoteCommand : String) (now : String) : String :=
  let lines :=
    ["# Generated by Sciama Slurm Connect on " ++ now,
     "Host " ++ aliasName,
     "  HostName " ++ loginHost] ++
    (if cfg.user ≠ "" then ["  User " ++ cfg.user] else []) ++
    (if cfg.requestTTY then ["  RequestTTY yes"] else []) ++
    (if cfg.forwardAgent then ["  ForwardAgent yes"] else []) ++
    (if cfg.identityFile ≠ "" then ["  IdentityFile " ++ cfg.identityFile] else []) ++
    ["  RemoteCommand " ++ remoteCommand] ++
    ((List.insertionSort (fun a b : String => a ≤ b)
        (cfg.additionalSshOptions.map Prod.fst)).filterMap
      (fun key =>
        match alistGet cfg.additionalSshOptions key with
        | some v => if v ≠ "" then some ("  " ++ key ++ " " ++ v) else none
        | none => none))
  String.intercalate "\n" lines ++ "\n"

/-- The overlay file body written by `writeTemporarySshConfig`: a fixed
comment line followed by the host entry (no `Include` directives). -/
def temporarySshConfigContent (entry : String) : String :=
  "# Temporary SSH config generated by Sciama Slurm Connect\n" ++ entry

/-! ## ClusterInfoFetcher (`fetchClusterInfo`) -/

def getMaxFieldCount (output : String) : Nat :=
  ((splitLines output).filter (fun l => jsTrim l ≠ "")).foldl
    (fun m l => max m (splitOnChar '|' l).length) 0

def hasMeaningfulClusterInfo (info : ClusterInfo) : Bool :=
  if info.partitions.isEmpty then false
  else info.partitions.any (fun p => p.cpus > 0 || p.memMb > 0 || p.gpuMax > 0)

/-- The candidate list: a configured custom command first (if non-empty),
then the two fixed report shapes. -/
def clusterInfoCommands (partitionInfoCommand : String) : List String :=
  ([partitionInfoCommand,
    "sinfo -h -N -o \"%P|%n|%c|%m|%G\"",
    "sinfo -h -o \"%P|%D|%c|%m|%G\""]).filter (fun c => c ≠ "")

/-- The acceptance test a candidate's output must pass for the loop to
return it: not GPU-marked-but-GPU-less, at least 5 fields, and meaningful. -/
def acceptedOutput (output : String) : Bool :=
  let info := parsePartitionInfoOutput output
  let outputHasGpu := jsIncludes output "gpu:"
  let hasGpu := info.partitions.any (fun p => p.gpuMax > 0)
  if outputHasGpu && !hasGpu then false
  else if getMaxFieldCount output < 5 then false
  else hasMeaningfulClusterInfo info

/-- The candidate loop of `fetchClusterInfo`. `runSshCommand` is the
`exec` oracle; note the loop body has no try/catch, so an execution
failure propagates immediately. -/
def fetchGo (exec : String → Except String String) :
    List String → ClusterInfo → Except String ClusterInfo
  | [], lastInfo => .ok lastInfo
  | c :: rest, _ =>
    match exec c with
    | .error e => .error e
    | .ok output =>
      let info := parsePartitionInfoOutput output
      let outputHasGpu := jsIncludes output "gpu:"
      let hasGpu := info.partitions.any (fun p => p.gpuMax > 0)
      if outputHasGpu && !hasGpu then fetchGo exec rest info
      else if getMaxFieldCount output < 5 then fetchGo exec rest info
      else if hasMeaningfulClusterInfo info then .ok info
      else fetchGo exec rest info

def fetchClusterInfo (exec : String → Except String String) (commands : List String) :
    Except String ClusterInfo :=
  fetchGo exec commands ⟨[], none⟩

/-! ## Non-interactive sizing validation and connect pipeline -/

/-- The wall-time pattern `/^(\d+-)?\d{1,2}:\d{2}:\d{2}$/` used by the
interactive `promptTime` validator. -/
def matchTimeCore (l : List Char) : Bool :=
  match l with
  | [a, b, ':', c, d, ':', e, f] =>
    a.isDigit && b.isDigit && c.isDigit && d.isDigit && e.isDigit && f.isDigit
  | [a, ':', c, d, ':', e, f] =>
    a.isDigit && c.isDigit && d.isDigit && e.isDigit && f.isDigit
  | _ => false

def timePatternMatches (s : String) : Bool :=
  let l := s.data
  let run := l.takeWhile Char.isDigit
  let rest := l.dropWhile Char.isDigit
  matchTimeCore l ||
    (!run.isEmpty &&
      (match rest with
       | '-' :: r => matchTimeCore r
       | _ => false))

/-- The non-interactive validation block of `connectCommand`: the first
failing check wins, and its message names the missing field. -/
def nonInteractiveSizingError (nodes tasksPerNode cpusPerTask : Int) (time : String) :
    Option String :=
  if nodes = 0 ∨ nodes < 1 then
    some "Default nodes is not set. Fill it in the side panel or settings."
  else if tasksPerNode = 0 ∨ tasksPerNode < 1 then
    some "Default tasks per node is not set. Fill it in the side panel or settings."
  else if cpusPerTask = 0 ∨ cpusPerTask < 1 then
    some "Default CPUs per task is not set. Fill it in the side panel or settings."
  else if time = "" then
    some "Default wall time is not set. Fill it in the side panel or settings."
  else none

/-- The non-interactive slice of `connectCommand` after host selection:
validate sizing, build the remote command, render the host entry and the
overlay body. An `Except.error` is a hard abort carrying only the message:
no remote command is composed and no overlay content is produced. -/
def connectNonInteractive (cfg : SciamaConfig) (loginHost now : String) :
    Except String (String × String) :=
  match nonInteractiveSizingError cfg.defaultNodes cfg.defaultTasksPerNode
      cfg.defaultCpusPerTask cfg.defaultTime with
  | some msg => .error msg
  | none =>
    let partition : Option String :=
      if cfg.defaultPartition = "" then none else some cfg.defaultPartition
    let sel : ResourceSelection :=
      ⟨partition, cfg.defaultNodes, cfg.defaultTasksPerNode, cfg.defaultCpusPerTask,
       cfg.defaultTime, cfg.defaultMemoryMb, cfg.defaultGpuType, cfg.defaultGpuCount,
       none, none⟩
    let remoteCommand := composeRemoteCommand cfg sel []
    if remoteCommand = "" then
      .error "RemoteCommand is empty. Check sciamaSlurm.proxyCommand."
    else
      let aliasName := jsTrim (buildDefaultAlias (if cfg.sshHostPrefix ≠ "" then cfg.sshHostPrefix else "sciama")
        loginHost partition cfg.defaultNodes cfg.defaultCpusPerTask)
      let hostEntry := buildHostEntry aliasName loginHost cfg remoteCommand now
      .ok (remoteCommand, temporarySshConfigContent hostEntry)

/-! ## Concrete instances used by witnesses and counterexamples -/

/-- The configuration exercised by the repository's own
`testBuildHostEntryQuotes` test (identity file with a space, one extra
option); remaining fields are defaults. -/
def cfgQuoteTest : SciamaConfig :=
  ⟨"", "/Users/Test User/.ssh/id_rsa", false, false, "", "", [], [], "",
   1, 1, 1, "", 0, "", 0, "", [("LocalCommand", "echo hello world")]⟩

/-- A configuration whose sizing defaults are positive and whose wall time
is a non-empty string that does not match the `HH:MM:SS` pattern. -/
def cfgTimeBad : SciamaConfig :=
  ⟨"", "", false, false, "", "proxy", [], [], "",
   1, 1, 1, "notatime", 0, "", 0, "", []⟩

/-- A configuration with defaultNodes = 0 (sizing invalid). -/
def cfgNodesZero : SciamaConfig :=
  ⟨"", "", false, false, "", "proxy", [], [], "",
   0, 1, 1, "01:00:00", 0, "", 0, "", []⟩

/-- A well-formed configuration used by determinism witnesses. -/
def cfgSample : SciamaConfig :=
  ⟨"alice", "~/.ssh/id_rsa", true, true, "module load foo", "python proxy.py",
   ["--arg"], ["--exclusive"], "gpu", 2, 1, 8, "01:00:00", 4096, "a100", 1,
   "sciama", []⟩

def selSample : ResourceSelection :=
  ⟨some "gpu", 2, 1, 8, "01:00:00", 4096, "a100", 1, some "normal", some "acct"⟩

/-- An execution oracle for which the first candidate command succeeds
(with a parseable but non-meaningful 3-field output) and every other
command fails. -/
def execW : String → Except String String :=
  fun c => if c = "cmdA" then .ok "a|b|c" else .error "boom"

/-- JavaScript optional set-add, for collecting the node identifiers two
lines contribute. -/
def optSetAdd (s : List String) (o : Option String) : List String :=
  match o with
  | some x => setAdd s x
  | none => s

/-- The union of the (at most two) distinct node identifiers contributed by
two parsed report lines. -/
def nodeIdUnion (d1 d2 : LineData) : List String :=
  optSetAdd (optSetAdd [] d1.nodeName) d2.nodeName

/-! # Theorems -/

/-- C2: the report line `gpu*|2gpu-01|64|128000|gpu:a100:4` parses to a single
partition named `gpu` with `isDefault = true`, but with `nodes = 2`, not 1:
`field[1] = "2gpu-01"` starts with a digit, so the source classifies it as a
numeric node count and `parseNumericField` extracts its leading run `2`.
The repository's own test (`testParsePartitionInfoOutputNodeNames`) and the
claim both require nodes = 1 from one distinct node identifier, which the
code contradicts. -/
theorem parse_line_2gpu01_nodes_eq_two :
    parsePartitionInfoOutput "gpu*|2gpu-01|64|128000|gpu:a100:4" =
      ⟨[⟨"gpu", 2, 64, 128000, 4, [("a100", 4)], true⟩], some "gpu"⟩ ∧
    (parsePartitionInfoOutput "gpu*|2gpu-01|64|128000|gpu:a100:4").partitions.map
      PartitionInfo.nodes = [2] := by
  constructor
  · decide
  · decide

/-- C3: `buildHostEntry` emits every directive value verbatim, with no
quoting at all: on the identity file `/Users/Test User/.ssh/id_rsa`
(which contains whitespace) the rendered block contains the unquoted line
`  IdentityFile /Users/Test User/.ssh/id_rsa`, and the quoted form the
repository's own test (`testBuildHostEntryQuotes`) asserts is absent. -/
theorem buildHostEntry_emits_values_unquoted :
    buildHostEntry "alias" "login.example.com" cfgQuoteTest "echo hi"
        "2024-01-01T00:00:00.000Z" =
      "# Generated by Sciama Slurm Connect on 2024-01-01T00:00:00.000Z\nHost alias\n  HostName login.example.com\n  IdentityFile /Users/Test User/.ssh/id_rsa\n  RemoteCommand echo hi\n  LocalCommand echo hello world\n" ∧
    jsIncludes
      (buildHostEntry "alias" "login.example.com" cfgQuoteTest "echo hi"
        "2024-01-01T00:00:00.000Z")
      "IdentityFile \"/Users/Test User/.ssh/id_rsa\"" = false := by
  constructor
  · decide
  · decide

/-- C4: the overlay body written by `writeTemporarySshConfig` is a fixed
comment line followed by the host entry only — it contains no
`Include "<path>"` directives at all, contrary to the claim and to the
repository's own `testBuildTemporarySshConfigContentIncludes` test. -/
theorem overlay_body_has_no_includes :
    (∀ entry, temporarySshConfigContent entry =
      "# Temporary SSH config generated by Sciama Slurm Connect\n" ++ entry) ∧
    jsIncludes (temporarySshConfigContent "Host alias\n  HostName login")
      "Include" = false := by
  refine ⟨fun entry => rfl, ?_⟩
  decide

/-- C9: the launch-command builder is a pure function — identical
`ResourceSelection`, configuration and extra arguments always produce
byte-identical composed remote command strings. -/
theorem composeRemoteCommand_deterministic
    (cfg1 cfg2 : SciamaConfig) (sel1 sel2 : ResourceSelection)
    (ea1 ea2 : List String)
    (hc : cfg1 = cfg2) (hs : sel1 = sel2) (he : ea1 = ea2) :
    composeRemoteCommand cfg1 sel1 ea1 = composeRemoteCommand cfg2 sel2 ea2 := by
  rw [hc, hs, he]

theorem composeRemoteCommand_deterministic_witness :
    composeRemoteCommand cfgSample selSample [] =
      composeRemoteCommand cfgSample selSample [] :=
  composeRemoteCommand_deterministic cfgSample cfgSample selSample selSample
    [] [] rfl rfl rfl

/-- C6: per-token behaviour of the GRES parser, stated over the cleaned and
`:`-split parts of the token. Two-part `gpu:X`: an all-digit `X` is a bare
count with empty type label (discarded when it is 0); a non-digit `X` is a
type with implied count 0, hence discarded. Three-or-more parts: part 1 is
the type, part 2 the count iff all digits, else 0; count 0 is discarded.
Parenthetical suffixes are stripped first (first example). The parser is a
total function, so no token can make it throw. -/
theorem gres_token_rules :
    (∀ t x, jsIncludes t "gpu" = true → gresTokenParts t = ["gpu", x] →
      resolveGresToken t =
        (if allDigits x then
          (if digitsToNat x.data = 0 then none else some ("", digitsToNat x.data))
         else none)) ∧
    (∀ t ty c rest, jsIncludes t "gpu" = true →
      gresTokenParts t = "gpu" :: ty :: c :: rest →
      resolveGresToken t =
        (if allDigits c then
          (if digitsToNat c.data = 0 then none else some (ty, digitsToNat c.data))
         else none)) ∧
    resolveGresToken "gpu:a100:4(S:0-1)" = some ("a100", 4) ∧
    resolveGresToken "gpu:2" = some ("", 2) ∧
    resolveGresToken "gpu:a100" = none := by
  refine ⟨?_, ?_, by decide, by decide, by decide⟩
  · intro t x h hp
    simp only [resolveGresToken, h, if_true, hp]
    by_cases hd : allDigits x
    · by_cases hz : digitsToNat x.data = 0 <;> simp [hd, hz]
    · simp [hd]
  · intro t ty c rest h hp
    simp only [resolveGresToken, h, if_true, hp]
    by_cases hd : allDigits c
    · by_cases hz : digitsToNat c.data = 0 <;> simp [hd, hz]
    · simp [hd]

theorem gres_token_rules_witness :
    resolveGresToken "gpu:a100:4(S:0-1)" = some ("a100", 4) := by
  have h := gres_token_rules.2.1 "gpu:a100:4(S:0-1)" "a100" "4" []
    (by decide) (by decide)
  exact h.trans (by decide)

/-- C5 counterexample: with positive sizing numbers and the wall time
`"notatime"` — a non-empty string that does not match the
`HH:MM:SS` / `D-HH:MM:SS` pattern — the non-interactive flow does **not**
abort: it succeeds and builds a launch command, because the code only
checks the wall time for non-emptiness. -/
theorem sizing_invalid_time_not_aborted :
    timePatternMatches "notatime" = false ∧
    (connectNonInteractive cfgTimeBad "login01.example.com"
      "2024-01-01T00:00:00.000Z").isOk = true := by
  constructor
  · decide
  · decide

theorem sizingError_eq_none_iff (n t c : Int) (tm : String) :
    nonInteractiveSizingError n t c tm = none ↔ (1 ≤ n ∧ 1 ≤ t ∧ 1 ≤ c ∧ tm ≠ "") := by
  simp only [nonInteractiveSizingError]
  split_ifs with h1 h2 h3 h4 <;> simp_all <;> omega

theorem connect_error_of_sizing (cfg : SciamaConfig) (loginHost now msg : String)
    (h : nonInteractiveSizingError cfg.defaultNodes cfg.defaultTasksPerNode
      cfg.defaultCpusPerTask cfg.defaultTime = some msg) :
    connectNonInteractive cfg loginHost now = Except.error msg := by
  simp only [connectNonInteractive, h]

theorem sizing_nodes_msg (n t c : Int) (tm : String) (h : n < 1) :
    nonInteractiveSizingError n t c tm =
      some "Default nodes is not set. Fill it in the side panel or settings." := by
  simp only [nonInteractiveSizingError]
  rw [if_pos (Or.inr h)]

theorem sizing_tasks_msg (n t c : Int) (tm : String) (h1 : 1 ≤ n) (h : t < 1) :
    nonInteractiveSizingError n t c tm =
      some "Default tasks per node is not set. Fill it in the side panel or settings." := by
  simp only [nonInteractiveSizingError]
  rw [if_neg (by omega), if_pos (Or.inr h)]

theorem sizing_cpus_msg (n t c : Int) (tm : String) (h1 : 1 ≤ n) (h2 : 1 ≤ t) (h : c < 1) :
    nonInteractiveSizingError n t c tm =
      some "Default CPUs per task is not set. Fill it in the side panel or settings." := by
  simp only [nonInteractiveSizingError]
  rw [if_neg (by omega), if_neg (by omega), if_pos (Or.inr h)]

theorem sizing_time_msg (n t c : Int) (tm : String) (h1 : 1 ≤ n) (h2 : 1 ≤ t) (h3 : 1 ≤ c)
    (h : tm = "") :
    nonInteractiveSizingError n t c tm =
      some "Default wall time is not set. Fill it in the side panel or settings." := by
  simp only [nonInteractiveSizingError]
  rw [if_neg (by omega), if_neg (by omega), if_neg (by omega), if_pos h]

/-- C5 (amended): in non-interactive mode the sizing step hard-aborts with a
message naming the missing field if and only if one of nodes, tasks-per-node,
cpus-per-task is below 1 or the wall time is empty; the wall-time *format*
(`HH:MM:SS` / `D-HH:MM:SS`) is only validated interactively, not here. On
such an abort the pipeline returns `Except.error msg` carrying only the
message: no launch command is composed and no overlay content is produced. -/
theorem connect_sizing_aborts_iff (cfg : SciamaConfig) (loginHost now : String) :
    ((∃ msg, nonInteractiveSizingError cfg.defaultNodes cfg.defaultTasksPerNode
        cfg.defaultCpusPerTask cfg.defaultTime = some msg ∧
        connectNonInteractive cfg loginHost now = Except.error msg) ↔
      (cfg.defaultNodes < 1 ∨ cfg.defaultTasksPerNode < 1 ∨
        cfg.defaultCpusPerTask < 1 ∨ cfg.defaultTime = "")) ∧
    (cfg.defaultNodes < 1 →
      connectNonInteractive cfg loginHost now =
        Except.error "Default nodes is not set. Fill it in the side panel or settings.") ∧
    (1 ≤ cfg.defaultNodes → cfg.defaultTasksPerNode < 1 →
      connectNonInteractive cfg loginHost now =
        Except.error "Default tasks per node is not set. Fill it in the side panel or settings.") ∧
    (1 ≤ cfg.defaultNodes → 1 ≤ cfg.defaultTasksPerNode → cfg.defaultCpusPerTask < 1 →
      connectNonInteractive cfg loginHost now =
        Except.error "Default CPUs per task is not set. Fill it in the side panel or settings.") ∧
    (1 ≤ cfg.defaultNodes → 1 ≤ cfg.defaultTasksPerNode → 1 ≤ cfg.defaultCpusPerTask →
      cfg.defaultTime = "" →
      connectNonInteractive cfg loginHost now =
        Except.error "Default wall time is not set. Fill it in the side panel or settings.") := by
  refine ⟨⟨?_, ?_⟩, ?_, ?_, ?_, ?_⟩
  · rintro ⟨msg, hs, -⟩
    by_contra hv
    push_neg at hv
    obtain ⟨h1, h2, h3, h4⟩ := hv
    rw [(sizingError_eq_none_iff _ _ _ _).mpr ⟨by omega, by omega, by omega, h4⟩] at hs
    cases hs
  · intro hv
    by_cases h1 : cfg.defaultNodes < 1
    · exact ⟨_, sizing_nodes_msg _ _ _ _ h1,
        connect_error_of_sizing _ _ _ _ (sizing_nodes_msg _ _ _ _ h1)⟩
    by_cases h2 : cfg.defaultTasksPerNode < 1
    · exact ⟨_, sizing_tasks_msg _ _ _ _ (by omega) h2,
        connect_error_of_sizing _ _ _ _ (sizing_tasks_msg _ _ _ _ (by omega) h2)⟩
    by_cases h3 : cfg.defaultCpusPerTask < 1
    · exact ⟨_, sizing_cpus_msg _ _ _ _ (by omega) (by omega) h3,
        connect_error_of_sizing _ _ _ _ (sizing_cpus_msg _ _ _ _ (by omega) (by omega) h3)⟩
    have h4 : cfg.defaultTime = "" := by tauto
    exact ⟨_, sizing_time_msg _ _ _ _ (by omega) (by omega) (by omega) h4,
      connect_error_of_sizing _ _ _ _
        (sizing_time_msg _ _ _ _ (by omega) (by omega) (by omega) h4)⟩
  · intro h1
    exact connect_error_of_sizing _ _ _ _ (sizing_nodes_msg _ _ _ _ h1)
  · intro h1 h2
    exact connect_error_of_sizing _ _ _ _ (sizing_tasks_msg _ _ _ _ h1 h2)
  · intro h1 h2 h3
    exact connect_error_of_sizing _ _ _ _ (sizing_cpus_msg _ _ _ _ h1 h2 h3)
  · intro h1 h2 h3 h4
    exact connect_error_of_sizing _ _ _ _ (sizing_time_msg _ _ _ _ h1 h2 h3 h4)

theorem connect_sizing_aborts_iff_witness :
    connectNonInteractive cfgNodesZero "login01.example.com" "2024-01-01T00:00:00.000Z" =
      Except.error "Default nodes is not set. Fill it in the side panel or settings." :=
  (connect_sizing_aborts_iff cfgNodesZero "login01.example.com"
    "2024-01-01T00:00:00.000Z").2.1 (by decide)

theorem fetchGo_cons_ok (exec : String → Except String String) (c : String)
    (rest : List String) (last : ClusterInfo) (o : String)
    (h : exec c = Except.ok o) :
    fetchGo exec (c :: rest) last =
      (if acceptedOutput o then Except.ok (parsePartitionInfoOutput o)
       else fetchGo exec rest (parsePartitionInfoOutput o)) := by
  simp only [fetchGo, h]
  by_cases hA : (jsIncludes o "gpu:" &&
      !(parsePartitionInfoOutput o).partitions.any (fun p => p.gpuMax > 0)) = true
  · simp [acceptedOutput, hA]
  · by_cases hB : getMaxFieldCount o < 5
    · simp [acceptedOutput, hA, hB]
    · by_cases hC : hasMeaningfulClusterInfo (parsePartitionInfoOutput o) = true
      · simp [acceptedOutput, hA, hB, hC]
      · simp [acceptedOutput, hA, hB, hC]

/-- C1 (amended): the candidate loop of `fetchClusterInfo` has no per-candidate
error handling, so the fetch propagates an error to its caller as soon as any
candidate's remote execution fails before some candidate is accepted — even
when an earlier candidate's execution succeeded and parsed (to a
non-accepted result), the fetch throws the later candidate's error instead
of returning the earlier parsed result. -/
theorem fetch_error_propagates (exec : String → Except String String)
    (cs1 cs2 : List String) (c e : String)
    (h1 : ∀ c' ∈ cs1, ∃ o, exec c' = Except.ok o ∧ acceptedOutput o = false)
    (h2 : exec c = Except.error e) :
    fetchClusterInfo exec (cs1 ++ c :: cs2) = Except.error e := by
  have aux : ∀ cs : List String,
      (∀ c' ∈ cs, ∃ o, exec c' = Except.ok o ∧ acceptedOutput o = false) →
      ∀ last, fetchGo exec (cs ++ c :: cs2) last = Except.error e := by
    intro cs
    induction cs with
    | nil =>
      intro _ last
      simp only [List.nil_append, fetchGo, h2]
    | cons a as ih =>
      intro hall last
      obtain ⟨o, ho, hao⟩ := hall a (List.mem_cons_self a as)
      rw [List.cons_append, fetchGo_cons_ok exec a (as ++ c :: cs2) last o ho, if_neg]
      · exact ih (fun c' hc' => hall c' (List.mem_cons_of_mem _ hc')) _
      · simp [hao]
  exact aux cs1 h1 ⟨[], none⟩

/-- C1 counterexample: with `execW`, the first candidate `cmdA` executes
successfully and parses (to a non-meaningful, 3-field result), the second
candidate `cmdB` throws — and the fetch propagates the error instead of
returning the earlier parsed result, refuting the claim that an error is
propagated only when every candidate's execution failed. -/
theorem fetch_throws_despite_earlier_parse :
    (execW "cmdA").isOk = true ∧
    parsePartitionInfoOutput "a|b|c" = ⟨[⟨"a", 1, 0, 0, 0, [], false⟩], none⟩ ∧
    fetchClusterInfo execW ["cmdA", "cmdB"] = Except.error "boom" := by
  refine ⟨by decide, by decide, by rfl⟩

theorem fetch_error_propagates_witness :
    fetchClusterInfo execW (["cmdA"] ++ "cmdB" :: []) = Except.error "boom" :=
  fetch_error_propagates execW ["cmdA"] [] "cmdB" "boom"
    (by
      intro c' hc'
      rw [List.mem_singleton] at hc'
      subst hc'
      exact ⟨"a|b|c", rfl, by decide⟩)
    rfl

/-- C8: the partition list returned by the report parser is always sorted
ascending by partition name, for every input text. (The parser itself is a
total function of the input — every unparsable token contributes 0 or an
empty value — so it can never throw; totality is inherent in the embedding.) -/
theorem parsePartitionInfoOutput_sorted (output : String) :
    List.Sorted (fun a b : PartitionInfo => a.name ≤ b.name)
      (parsePartitionInfoOutput output).partitions := by
  simp only [parsePartitionInfoOutput]
  exact List.sorted_insertionSort _ _

theorem ite_some_pos (tc : String × Nat) (ty : String) (c : Nat)
    (h : (if tc.2 = 0 then none else some tc) = some (ty, c)) : 0 < c := by
  by_cases hz : tc.2 = 0
  · rw [if_pos hz] at h
    cases h
  · rw [if_neg hz] at h
    injection h with h2
    have : tc.2 = c := by rw [h2]
    omega

theorem resolveGresToken_pos (t ty : String) (c : Nat) :
    resolveGresToken t = some (ty, c) → 0 < c := by
  simp only [resolveGresToken]
  split
  · split
    · intro h
      cases h
    · split
      · intro h
        exact ite_some_pos _ ty c h
      · intro h
        cases h
  · intro h
    cases h

theorem le_maxValues (m : List (String × Nat)) (p : String × Nat) (h : p ∈ m) :
    p.2 ≤ maxValues m := by
  induction m with
  | nil => cases h
  | cons q rest ih =>
    rcases List.mem_cons.mp h with h' | h'
    · subst h'
      simp [maxValues]
    · simp only [maxValues, List.foldr_cons]
      exact le_trans (ih h') (le_max_right _ _)

theorem mem_alistSet {α : Type} (m : List (String × α)) (k : String) (v : α)
    (p : String × α) : p ∈ alistSet m k v → p = (k, v) ∨ p ∈ m := by
  induction m with
  | nil =>
    intro h
    simpa [alistSet] using h
  | cons q rest ih =>
    obtain ⟨k', v'⟩ := q
    intro h
    by_cases hk : k' = k
    · subst hk
      simp only [alistSet, if_pos rfl] at h
      rcases List.mem_cons.mp h with h' | h'
      · exact Or.inl h'
      · exact Or.inr (List.mem_cons_of_mem _ h')
    · simp only [alistSet, if_neg hk] at h
      rcases List.mem_cons.mp h with h' | h'
      · exact Or.inr (h' ▸ List.mem_cons_self _ _)
      · rcases ih h' with h2 | h2
        · exact Or.inl h2
        · exact Or.inr (List.mem_cons_of_mem _ h2)

theorem maxValues_alistSet (m : List (String × Nat)) (k : String) (c : Nat) :
    maxValues (alistSet m k (max (typeCount m k) c)) = max (maxValues m) c := by
  induction m with
  | nil => simp [maxValues, alistSet, typeCount, alistGet]
  | cons q rest ih =>
    obtain ⟨k', v'⟩ := q
    by_cases hk : k' = k
    · subst hk
      have h1 : alistSet ((k', v') :: rest) k' (max (typeCount ((k', v') :: rest) k') c) =
          (k', max v' c) :: rest := by
        simp [alistSet, typeCount, alistGet]
      rw [h1]
      simp only [maxValues, List.foldr_cons]
      omega
    · have h1 : alistSet ((k', v') :: rest) k (max (typeCount ((k', v') :: rest) k) c) =
          (k', v') :: alistSet rest k (max (typeCount rest k) c) := by
        simp [alistSet, hk, typeCount, alistGet]
      rw [h1]
      simp only [maxValues, List.foldr_cons]
      have ih' := ih
      simp only [maxValues] at ih'
      omega

theorem gres_fold_invariant (tokens : List String) (st : GresInfo)
    (h1 : st.gpuMax = maxValues st.gpuTypes)
    (h2 : ∀ p ∈ st.gpuTypes, 0 < p.2) :
    (tokens.foldl gresStep st).gpuMax = maxValues (tokens.foldl gresStep st).gpuTypes ∧
    ∀ p ∈ (tokens.foldl gresStep st).gpuTypes, 0 < p.2 := by
  induction tokens generalizing st with
  | nil => exact ⟨h1, h2⟩
  | cons tok rest ih =>
    simp only [List.foldl_cons]
    apply ih
    · cases hr : resolveGresToken tok with
      | none => simpa [gresStep, hr] using h1
      | some tc =>
        obtain ⟨ty, c⟩ := tc
        simp only [gresStep, hr]
        rw [maxValues_alistSet, ← h1]
    · cases hr : resolveGresToken tok with
      | none => simpa [gresStep, hr] using h2
      | some tc =>
        obtain ⟨ty, c⟩ := tc
        simp only [gresStep, hr]
        intro p hp
        rcases mem_alistSet _ _ _ _ hp with h' | h'
        · have hc := resolveGresToken_pos tok ty c hr
          rw [h']
          simp only
          omega
        · exact h2 p h'

/-- C10: for every GRES descriptor string, the returned `gpuMax` equals the
maximum over all per-type counts in the returned `gpuTypes` map, and it is 0
exactly when that map is empty. -/
theorem parseGresInfo_gpuMax_invariant (raw : String) :
    (parseGresInfo raw).gpuMax = maxValues (parseGresInfo raw).gpuTypes ∧
    ((parseGresInfo raw).gpuMax = 0 ↔ (parseGresInfo raw).gpuTypes = []) := by
  by_cases hraw : raw = ""
  · subst hraw
    exact ⟨rfl, by simp [parseGresInfo, maxValues]⟩
  · simp only [parseGresInfo, if_neg hraw]
    obtain ⟨hA, hB⟩ := gres_fold_invariant
      (((splitOnChar ',' raw).map jsTrim).filter (fun t => t ≠ "")) ⟨0, []⟩ rfl
      (by intro p hp; cases hp)
    refine ⟨hA, ?_, ?_⟩
    · intro h0
      rcases hty : ((((splitOnChar ',' raw).map jsTrim).filter
          (fun t => t ≠ "")).foldl gresStep ⟨0, []⟩).gpuTypes with _ | ⟨p, prest⟩
      · rfl
      · exfalso
        have hpos := hB p (by rw [hty]; exact List.mem_cons_self _ _)
        have hle := le_maxValues _ p
          (show p ∈ ((((splitOnChar ',' raw).map jsTrim).filter
            (fun t => t ≠ "")).foldl gresStep ⟨0, []⟩).gpuTypes by
            rw [hty]; exact List.mem_cons_self _ _)
        have hm := hA.symm.trans h0
        rw [hm] at hle
        omega
    · intro h
      rw [hA, h]
      rfl

theorem setAdd_length_pos (s : List String) (x : String) : 0 < (setAdd s x).length := by
  unfold setAdd
  split_ifs with h
  · exact List.length_pos.mpr (List.ne_nil_of_mem h)
  · simp

theorem typeCount_alistSet (m : List (String × Nat)) (k : String) (v : Nat) (t : String) :
    typeCount (alistSet m k v) t = if k = t then v else typeCount m t := by
  induction m with
  | nil =>
    simp only [alistSet, typeCount, alistGet]
    split_ifs <;> rfl
  | cons q rest ih =>
    obtain ⟨k', v'⟩ := q
    by_cases hk : k' = k
    · subst hk
      simp only [alistSet, if_pos rfl, typeCount, alistGet]
      split_ifs <;> rfl
    · simp only [alistSet, if_neg hk, typeCount, alistGet]
      by_cases ht : k' = t
      · subst ht
        rw [if_pos rfl, if_pos rfl, if_neg (fun h => hk h.symm)]
      · rw [if_neg ht, if_neg ht]
        have h' := ih
        simp only [typeCount] at h'
        exact h'

theorem typeCount_merge (es m : List (String × Nat)) (t : String) :
    typeCount (mergeGpuTypes m es) t =
      es.foldl (fun a p => if p.1 = t then max a p.2 else a) (typeCount m t) := by
  induction es generalizing m with
  | nil => rfl
  | cons p rest ih =>
    simp only [mergeGpuTypes, List.foldl_cons] at *
    rw [ih]
    congr 1
    rw [typeCount_alistSet]
    split_ifs with h
    · rw [h]
    · rfl

theorem foldl_contrib_max (es : List (String × Nat)) (t : String) (a : Nat) :
    es.foldl (fun a p => if p.1 = t then max a p.2 else a) a =
      max a (es.foldl (fun a p => if p.1 = t then max a p.2 else a) 0) := by
  induction es generalizing a with
  | nil => simp
  | cons p rest ih =>
    simp only [List.foldl_cons]
    by_cases hp : p.1 = t
    · rw [if_pos hp, if_pos hp, ih (max a p.2), ih (max 0 p.2)]
      omega
    · rw [if_neg hp, if_neg hp]
      exact ih a

theorem alistGet_eq_none_iff {α : Type} (m : List (String × α)) (k : String) :
    alistGet m k = none ↔ k ∉ m.map Prod.fst := by
  induction m with
  | nil => simp [alistGet]
  | cons q rest ih =>
    obtain ⟨k', v'⟩ := q
    by_cases hk : k' = k
    · subst hk
      simp [alistGet]
    · rw [show alistGet ((k', v') :: rest) k = alistGet rest k by
        simp [alistGet, hk], ih]
      simp only [List.map_cons, List.mem_cons]
      constructor
      · intro h hor
        rcases hor with h' | h'
        · exact hk h'.symm
        · exact h h'
      · intro h hmem
        exact h (Or.inr hmem)

theorem typeCount_zero_of_not_mem (m : List (String × Nat)) (k : String)
    (h : k ∉ m.map Prod.fst) : typeCount m k = 0 := by
  rw [typeCount, (alistGet_eq_none_iff m k).mpr h]
  rfl

theorem contrib_eq_typeCount (es : List (String × Nat)) (t : String)
    (h : (es.map Prod.fst).Nodup) :
    es.foldl (fun a p => if p.1 = t then max a p.2 else a) 0 = typeCount es t := by
  induction es with
  | nil => rfl
  | cons p rest ih =>
    simp only [List.map_cons, List.nodup_cons] at h
    obtain ⟨hnm, hnd⟩ := h
    simp only [List.foldl_cons]
    by_cases hp : p.1 = t
    · rw [if_pos hp, foldl_contrib_max, ih hnd]
      subst hp
      rw [typeCount_zero_of_not_mem rest p.1 hnm]
      obtain ⟨k, v⟩ := p
      simp [typeCount, alistGet]
    · rw [if_neg hp, ih hnd]
      obtain ⟨k, v⟩ := p
      simp only at hp
      simp [typeCount, alistGet, hp]

theorem alistSet_keys {α : Type} (m : List (String × α)) (k : String) (v : α) :
    (alistSet m k v).map Prod.fst =
      if k ∈ m.map Prod.fst then m.map Prod.fst else m.map Prod.fst ++ [k] := by
  induction m with
  | nil => simp [alistSet]
  | cons q rest ih =>
    obtain ⟨k', v'⟩ := q
    by_cases hk : k' = k
    · subst hk
      simp [alistSet]
    · have hkk : ¬k = k' := fun h => hk h.symm
      simp only [alistSet, if_neg hk, List.map_cons, List.mem_cons, ih]
      by_cases hmem : k ∈ rest.map Prod.fst
      · simp [hmem, hkk]
      · simp [hmem, hkk]

theorem alistSet_nodupKeys {α : Type} (m : List (String × α)) (k : String) (v : α)
    (h : (m.map Prod.fst).Nodup) : ((alistSet m k v).map Prod.fst).Nodup := by
  rw [alistSet_keys]
  split_ifs with hk
  · exact h
  · simp [List.nodup_append, h, hk]

theorem parseGresInfo_nodupKeys (raw : String) :
    ((parseGresInfo raw).gpuTypes.map Prod.fst).Nodup := by
  have aux : ∀ (tokens : List String) (st : GresInfo),
      (st.gpuTypes.map Prod.fst).Nodup →
      ((tokens.foldl gresStep st).gpuTypes.map Prod.fst).Nodup := by
    intro tokens
    induction tokens with
    | nil => intro st h; exact h
    | cons tok rest ih =>
      intro st h
      simp only [List.foldl_cons]
      apply ih
      cases hr : resolveGresToken tok with
      | none => simpa [gresStep, hr] using h
      | some tc =>
        obtain ⟨ty, c⟩ := tc
        simp only [gresStep, hr]
        exact alistSet_nodupKeys _ _ _ h
  by_cases hraw : raw = ""
  · subst hraw
    simp [parseGresInfo]
  · simp only [parseGresInfo, if_neg hraw]
    exact aux _ ⟨0, []⟩ (by simp)

theorem typeCount_double_merge (T1 T2 : List (String × Nat))
    (h1 : (T1.map Prod.fst).Nodup) (h2 : (T2.map Prod.fst).Nodup) (t : String) :
    typeCount (mergeGpuTypes (mergeGpuTypes [] T1) T2) t =
      max (typeCount T1 t) (typeCount T2 t) := by
  rw [typeCount_merge, foldl_contrib_max, contrib_eq_typeCount T2 t h2,
    typeCount_merge, foldl_contrib_max, contrib_eq_typeCount T1 t h1]
  have : typeCount ([] : List (String × Nat)) t = 0 := rfl
  rw [this]
  omega

theorem parseLineData_gres_eq (l : String) (d : LineData)
    (h : parseLineData l = some d) :
    d.gres = parseGresInfo (((splitOnChar '|' l).map jsTrim).getD 4 "") := by
  simp only [parseLineData] at h
  split at h
  · cases h
  · split at h
    · cases h
    · cases h
      rfl

theorem applyName_empty_none (d : LineData) (n : String) (b : Bool)
    (hd : d.nodeName = none) :
    applyName d ⟨[], [], none⟩ (n, b) =
      ⟨[(n, ⟨n, d.nodesCount, d.cpus, d.memMb, d.gres.gpuMax,
          mergeGpuTypes [] d.gres.gpuTypes, b⟩)], [],
        if b then some n else none⟩ := by
  simp only [applyName, hd, alistGet, alistSet, emptyRecord, Option.getD_none,
    Option.isNone_none, Bool.and_true, Nat.zero_max, Bool.or_self]
  split_ifs <;> simp_all

theorem applyName_empty_some (d : LineData) (n : String) (b : Bool) (nn : String)
    (hd : d.nodeName = some nn) :
    applyName d ⟨[], [], none⟩ (n, b) =
      ⟨[(n, ⟨n, 0, d.cpus, d.memMb, d.gres.gpuMax,
          mergeGpuTypes [] d.gres.gpuTypes, b⟩)], [(n, [nn])],
        if b then some n else none⟩ := by
  simp only [applyName, hd, alistGet, alistSet, emptyRecord, Option.getD_none,
    Option.isNone_none, Bool.and_true, Nat.zero_max, Bool.or_self, setAdd,
    List.not_mem_nil, if_neg, List.nil_append]
  split_ifs <;> simp_all [setAdd]

theorem applyName_snd_none (d : LineData) (n : String) (b : Bool)
    (r : PartitionInfo) (ns : List (String × List String)) (dp : Option String)
    (hd : d.nodeName = none) :
    applyName d ⟨[(n, r)], ns, dp⟩ (n, b) =
      ⟨[(n, ⟨r.name, max r.nodes d.nodesCount, max r.cpus d.cpus,
          max r.memMb d.memMb, max r.gpuMax d.gres.gpuMax,
          mergeGpuTypes r.gpuTypes d.gres.gpuTypes, r.isDefault || b⟩)], ns,
        if b && dp.isNone then some n else dp⟩ := by
  simp [applyName, hd, alistGet, alistSet]
  omega

theorem applyName_snd_some (d : LineData) (n : String) (b : Bool) (nn : String)
    (r : PartitionInfo) (ns : List (String × List String)) (dp : Option String)
    (hd : d.nodeName = some nn) :
    applyName d ⟨[(n, r)], ns, dp⟩ (n, b) =
      ⟨[(n, ⟨r.name, r.nodes, max r.cpus d.cpus,
          max r.memMb d.memMb, max r.gpuMax d.gres.gpuMax,
          mergeGpuTypes r.gpuTypes d.gres.gpuTypes, r.isDefault || b⟩)],
        alistSet ns n (setAdd ((alistGet ns n).getD []) nn),
        if b && dp.isNone then some n else dp⟩ := by
  simp [applyName, hd, alistGet, alistSet]

/-- C7: when exactly two report lines contribute to the same partition name,
the resulting record's cpus, memMb, gpuMax and per-type gpuTypes entries are
the elementwise / per-type maximum of the two line contributions (never a
sum), isDefault is the OR of the two flags, and when the set of distinct
node identifiers contributed is non-empty the node count is that set's
size. -/
theorem partition_merge_two_lines
    (l1 l2 : String) (d1 d2 : LineData) (n : String) (b1 b2 : Bool) (output : String)
    (h0 : toLines output = [l1, l2])
    (h1 : parseLineData l1 = some d1)
    (h2 : parseLineData l2 = some d2)
    (hn1 : d1.names = [(n, b1)])
    (hn2 : d2.names = [(n, b2)]) :
    ∃ r, (parsePartitionInfoOutput output).partitions = [r] ∧
      r.name = n ∧
      r.cpus = max d1.cpus d2.cpus ∧
      r.memMb = max d1.memMb d2.memMb ∧
      r.gpuMax = max d1.gres.gpuMax d2.gres.gpuMax ∧
      (∀ t, typeCount r.gpuTypes t =
        max (typeCount d1.gres.gpuTypes t) (typeCount d2.gres.gpuTypes t)) ∧
      r.isDefault = (b1 || b2) ∧
      (nodeIdUnion d1 d2 ≠ [] → r.nodes = (nodeIdUnion d1 d2).length) := by
  have hnd1 : (d1.gres.gpuTypes.map Prod.fst).Nodup := by
    rw [parseLineData_gres_eq l1 d1 h1]
    exact parseGresInfo_nodupKeys _
  have hnd2 : (d2.gres.gpuTypes.map Prod.fst).Nodup := by
    rw [parseLineData_gres_eq l2 d2 h2]
    exact parseGresInfo_nodupKeys _
  have hfold0 : (toLines output).foldl processLine ⟨[], [], none⟩ =
      applyName d2 (applyName d1 ⟨[], [], none⟩ (n, b1)) (n, b2) := by
    rw [h0]
    simp only [List.foldl_cons, List.foldl_nil, processLine, h1, h2, hn1, hn2]
  rcases hd1 : d1.nodeName with _ | nn1 <;> rcases hd2 : d2.nodeName with _ | nn2
  · refine ⟨⟨n, max d1.nodesCount d2.nodesCount, max d1.cpus d2.cpus,
      max d1.memMb d2.memMb, max d1.gres.gpuMax d2.gres.gpuMax,
      mergeGpuTypes (mergeGpuTypes [] d1.gres.gpuTypes) d2.gres.gpuTypes,
      b1 || b2⟩, ?_, rfl, rfl, rfl, rfl, ?_, rfl, ?_⟩
    · rw [applyName_empty_none d1 n b1 hd1, applyName_snd_none d2 n b2 _ _ _ hd2]
        at hfold0
      simp only [parsePartitionInfoOutput, hfold0]
      simp [finalizeRecord, alistGet, List.insertionSort, List.orderedInsert]
    · intro t
      exact typeCount_double_merge _ _ hnd1 hnd2 t
    · intro hne
      exact absurd (by simp [nodeIdUnion, optSetAdd, hd1, hd2]) hne
  · refine ⟨⟨n, 1, max d1.cpus d2.cpus,
      max d1.memMb d2.memMb, max d1.gres.gpuMax d2.gres.gpuMax,
      mergeGpuTypes (mergeGpuTypes [] d1.gres.gpuTypes) d2.gres.gpuTypes,
      b1 || b2⟩, ?_, rfl, rfl, rfl, rfl, ?_, rfl, ?_⟩
    · rw [applyName_empty_none d1 n b1 hd1, applyName_snd_some d2 n b2 nn2 _ _ _ hd2]
        at hfold0
      simp only [parsePartitionInfoOutput, hfold0]
      simp [finalizeRecord, alistGet, alistSet, setAdd, List.insertionSort,
        List.orderedInsert]
    · intro t
      exact typeCount_double_merge _ _ hnd1 hnd2 t
    · intro hne
      simp [nodeIdUnion, optSetAdd, hd1, hd2, setAdd]
  · refine ⟨⟨n, 1, max d1.cpus d2.cpus,
      max d1.memMb d2.memMb, max d1.gres.gpuMax d2.gres.gpuMax,
      mergeGpuTypes (mergeGpuTypes [] d1.gres.gpuTypes) d2.gres.gpuTypes,
      b1 || b2⟩, ?_, rfl, rfl, rfl, rfl, ?_, rfl, ?_⟩
    · rw [applyName_empty_some d1 n b1 nn1 hd1, applyName_snd_none d2 n b2 _ _ _ hd2]
        at hfold0
      simp only [parsePartitionInfoOutput, hfold0]
      simp [finalizeRecord, alistGet, List.insertionSort, List.orderedInsert]
    · intro t
      exact typeCount_double_merge _ _ hnd1 hnd2 t
    · intro hne
      simp [nodeIdUnion, optSetAdd, hd1, hd2, setAdd]
  · refine ⟨⟨n, (setAdd [nn1] nn2).length, max d1.cpus d2.cpus,
      max d1.memMb d2.memMb, max d1.gres.gpuMax d2.gres.gpuMax,
      mergeGpuTypes (mergeGpuTypes [] d1.gres.gpuTypes) d2.gres.gpuTypes,
      b1 || b2⟩, ?_, rfl, rfl, rfl, rfl, ?_, rfl, ?_⟩
    · rw [applyName_empty_some d1 n b1 nn1 hd1, applyName_snd_some d2 n b2 nn2 _ _ _ hd2]
        at hfold0
      simp only [parsePartitionInfoOutput, hfold0]
      simp [finalizeRecord, alistGet, alistSet, setAdd_length_pos,
        List.insertionSort, List.orderedInsert]
    · intro t
      exact typeCount_double_merge _ _ hnd1 hnd2 t
    · intro hne
      simp [nodeIdUnion, optSetAdd, hd1, hd2, setAdd]

theorem partition_merge_two_lines_witness :
    ∃ r, (parsePartitionInfoOutput
        "alpha|node1|8|1000|gpu:2\nalpha|node2|16|500|").partitions = [r] ∧
      r.name = "alpha" ∧ r.cpus = 16 ∧ r.memMb = 1000 ∧ r.gpuMax = 2 ∧
      r.isDefault = false ∧ r.nodes = 2 := by
  obtain ⟨r, hp, hname, hcpus, hmem, hgpu, -, hdef, hnodes⟩ :=
    partition_merge_two_lines "alpha|node1|8|1000|gpu:2" "alpha|node2|16|500|"
      ⟨[("alpha", false)], some "node1", 0, 8, 1000, ⟨2, [("", 2)]⟩⟩
      ⟨[("alpha", false)], some "node2", 0, 16, 500, ⟨0, []⟩⟩
      "alpha" false false
      "alpha|node1|8|1000|gpu:2\nalpha|node2|16|500|"
      (by decide) (by decide) (by decide) rfl rfl
  refine ⟨r, hp, hname, hcpus.trans (by decide), hmem.trans (by decide),
    hgpu.trans (by decide), hdef.trans (by decide), ?_⟩
  have h := hnodes (by decide)
  rw [h]
  decide

theorem parseGresInfo_gpuMax_invariant_witness :
    (parseGresInfo "gpu:a100:4(S:0-1)").gpuMax =
      maxValues (parseGresInfo "gpu:a100:4(S:0-1)").gpuTypes :=
  (parseGresInfo_gpuMax_invariant "gpu:a100:4(S:0-1)").1
